import Mathlib

/-!
Verification of the KNX DPT 242.600 (xyY color) codec and its remote-value
bridge, shallowly embedded from `xknx/dpt/dpt_color.py`.

Numbers are modelled exactly: Python floats are embedded as rationals (every
value appearing in the codec is exactly representable), Python's `round`
(banker's rounding, round-half-to-even) is modelled by `pyRound`, and a raised
`ConversionError` is modelled by `none` in an `Option` result.
-/

namespace XknxColor

/-- Python `round(q)`: round half to even, on exact rationals. -/
def pyRound (q : ℚ) : ℤ :=
  if q - ⌊q⌋ < 1/2 then ⌊q⌋
  else if 1/2 < q - ⌊q⌋ then ⌊q⌋ + 1
  else if Even ⌊q⌋ then ⌊q⌋ else ⌊q⌋ + 1

/-- Python `round(q, 5)`: round to 5 decimal digits. -/
def round5 (q : ℚ) : ℚ := (pyRound (q * 100000) : ℚ) / 100000

/-- `raw / 0xFFFF` rounded to 5 digits, as in `DPTColorXYY.from_knx`. -/
def decode_fraction (raw : ℕ) : ℚ := round5 ((raw : ℚ) / 65535)

/-- `round(axis * 0xFFFF)`, as in `DPTColorXYY.to_knx`. -/
def encode_fraction (q : ℚ) : ℤ := pyRound (q * 65535)

/-- A KNX payload: `DPTArray` (a byte tuple) or `DPTBinary` (a small value). -/
inductive DPTPayload where
  | array : List ℕ → DPTPayload
  | binary : ℕ → DPTPayload
deriving DecidableEq

/-- `XYYColor` dataclass: optional (x, y) pair, optional brightness.
Brightness is a rational because Python does not enforce the `int` hint;
`to_knx` only range-checks it and then truncates with `int(...)`. -/
structure XYYColor where
  color : Option (ℚ × ℚ) := none
  brightness : Option ℚ := none
deriving DecidableEq

/-- The loosely-typed mapping accepted by `XYYColor.from_dict`
(restricted to numeric entries; an absent key is `none`). -/
structure ColorDict where
  x_axis : Option ℚ := none
  y_axis : Option ℚ := none
  brightness : Option ℚ := none

/-- `XYYColor.from_dict`: color is set only when BOTH axes are present; each
axis is then range-checked (out of range raises `ConversionError`).  When at
most one axis is present, `color` stays `None`.  Brightness is passed through
unchecked. -/
def XYYColor.from_dict (data : ColorDict) : Option XYYColor :=
  match data.x_axis, data.y_axis with
  | some x, some y =>
    if 0 ≤ x ∧ x ≤ 1 ∧ 0 ≤ y ∧ y ≤ 1 then
      some { color := some (x, y), brightness := data.brightness }
    else
      none
  | _, _ => some { color := none, brightness := data.brightness }

/-- Modelled from the spec: `DPT.validate_payload` (base-class code not under
`src/`): the payload must be of this type's payload kind (`DPTArray`) and its
length must equal the declared fixed length 6; otherwise a conversion error. -/
def validate_payload (payload : DPTPayload) : Option (List ℕ) :=
  match payload with
  | .array raw => if raw.length = 6 then some raw else none
  | .binary _ => none

/-- `DPTColorXYY.from_knx`. -/
def from_knx (payload : DPTPayload) : Option XYYColor :=
  match validate_payload payload with
  | none => none
  | some raw =>
    let x_axis_int := raw.getD 0 0 <<< 8 ||| raw.getD 1 0
    let y_axis_int := raw.getD 2 0 <<< 8 ||| raw.getD 3 0
    let brightness := raw.getD 4 0
    let color_valid := raw.getD 5 0 >>> 1 &&& 1
    let brightness_valid := raw.getD 5 0 &&& 1
    some
      { color :=
          if color_valid ≠ 0 then
            some (decode_fraction x_axis_int, decode_fraction y_axis_int)
          else none,
        brightness := if brightness_valid ≠ 0 then some (brightness : ℚ) else none }

/-- `DPTColorXYY.to_knx`. -/
def to_knx (value : XYYColor) : Option DPTPayload := do
  let cxy ←
    match value.color with
    | none => some (false, 0, 0)
    | some (x, y) =>
      if 0 ≤ x ∧ x ≤ 1 ∧ 0 ≤ y ∧ y ≤ 1 then
        some (true, (encode_fraction x).toNat, (encode_fraction y).toNat)
      else none
  let cb ←
    match value.brightness with
    | none => some (false, 0)
    | some b => if 0 ≤ b ∧ b ≤ 255 then some (true, (⌊b⌋).toNat) else none
  let x_axis := cxy.2.1
  let y_axis := cxy.2.2
  some (.array
    [x_axis >>> 8, x_axis &&& 0xFF, y_axis >>> 8, y_axis &&& 0xFF, cb.2,
      (if cxy.1 then 1 else 0) <<< 1 ||| (if cb.1 then 1 else 0)])

/-! ### Helper lemmas about `pyRound` and the fixed-point fractions -/

theorem abs_pyRound_sub_le (q : ℚ) : |(pyRound q : ℚ) - q| ≤ 1/2 := by
  have h0 : (⌊q⌋ : ℚ) ≤ q := Int.floor_le q
  have h1 : q < ⌊q⌋ + 1 := Int.lt_floor_add_one q
  unfold pyRound
  split_ifs with hlt hgt hev
  · rw [abs_le]; constructor <;> linarith
  · rw [abs_le]; push_cast; constructor <;> linarith
  · rw [abs_le]; constructor <;> linarith
  · rw [abs_le]; push_cast; constructor <;> linarith

theorem pyRound_eq_of (q : ℚ) (m : ℤ) (h : |q - (m : ℚ)| < 1/2) : pyRound q = m := by
  have h1 := abs_pyRound_sub_le q
  have h2 : |((pyRound q - m : ℤ) : ℚ)| < 1 := by
    push_cast
    calc |(pyRound q : ℚ) - (m : ℚ)|
        ≤ |(pyRound q : ℚ) - q| + |q - (m : ℚ)| := abs_sub_le _ _ _
      _ < 1 := by linarith
  have h3 : |pyRound q - m| < 1 := by exact_mod_cast h2
  rw [abs_lt] at h3
  omega

theorem pyRound_intCast (m : ℤ) : pyRound (m : ℚ) = m := by
  apply pyRound_eq_of
  simp

/-- Re-encoding the 5-digit-rounded fraction of a raw 16-bit value recovers
the raw value: the rounding step (1/100000) is finer than half the
fixed-point step (1/131070). -/
theorem encode_fraction_decode_fraction (k : ℕ) :
    encode_fraction (decode_fraction k) = (k : ℤ) := by
  have hb := abs_pyRound_sub_le ((k : ℚ) / 65535 * 100000)
  apply pyRound_eq_of
  push_cast
  have hrw : decode_fraction k * 65535 - (k : ℚ) =
      (65535/100000) *
        ((pyRound ((k : ℚ) / 65535 * 100000) : ℚ) - (k : ℚ) / 65535 * 100000) := by
    unfold decode_fraction round5
    ring
  rw [hrw, abs_mul, abs_of_pos (by norm_num : (0:ℚ) < 65535/100000)]
  calc (65535/100000 : ℚ) * |(pyRound ((k : ℚ) / 65535 * 100000) : ℚ) -
          (k : ℚ) / 65535 * 100000|
      ≤ 65535/100000 * (1/2) := by
        apply mul_le_mul_of_nonneg_left hb (by norm_num)
    _ < 1/2 := by norm_num

theorem decode_fraction_injective (r₁ r₂ : ℕ)
    (h : decode_fraction r₁ = decode_fraction r₂) : r₁ = r₂ := by
  have h1 := encode_fraction_decode_fraction r₁
  have h2 := encode_fraction_decode_fraction r₂
  rw [h] at h1
  rw [h1] at h2
  exact_mod_cast h2

theorem decode_fraction_nonneg (k : ℕ) : 0 ≤ decode_fraction k := by
  have hb := abs_pyRound_sub_le ((k : ℚ) / 65535 * 100000)
  rw [abs_le] at hb
  have hq : (0:ℚ) ≤ (k : ℚ) / 65535 * 100000 := by positivity
  have h1 : (-1 : ℚ) < (pyRound ((k : ℚ) / 65535 * 100000) : ℚ) := by linarith
  have h2 : (-1 : ℤ) < pyRound ((k : ℚ) / 65535 * 100000) := by exact_mod_cast h1
  unfold decode_fraction round5
  have h3 : (0:ℚ) ≤ (pyRound ((k : ℚ) / 65535 * 100000) : ℚ) := by
    have : (0:ℤ) ≤ pyRound ((k : ℚ) / 65535 * 100000) := by omega
    exact_mod_cast this
  positivity

theorem decode_fraction_le_one (k : ℕ) (hk : k ≤ 65535) : decode_fraction k ≤ 1 := by
  have hb := abs_pyRound_sub_le ((k : ℚ) / 65535 * 100000)
  rw [abs_le] at hb
  have hq : (k : ℚ) / 65535 * 100000 ≤ 100000 := by
    have : (k : ℚ) ≤ 65535 := by exact_mod_cast hk
    rw [div_mul_eq_mul_div, div_le_iff₀ (by norm_num)]
    linarith
  have h1 : (pyRound ((k : ℚ) / 65535 * 100000) : ℚ) < 100001 := by linarith
  have h2 : pyRound ((k : ℚ) / 65535 * 100000) < 100001 := by exact_mod_cast h1
  have h3 : (pyRound ((k : ℚ) / 65535 * 100000) : ℚ) ≤ 100000 := by
    have : pyRound ((k : ℚ) / 65535 * 100000) ≤ 100000 := by omega
    exact_mod_cast this
  unfold decode_fraction round5
  linarith

/-! ### Helper lemmas about bit manipulation and unfolding the codec -/

theorem lor_two_bytes (a b : ℕ) (hb : b < 256) : a <<< 8 ||| b = a * 256 + b := by
  have h : 2 ^ 8 * a + b = 2 ^ 8 * a ||| b :=
    Nat.mul_add_lt_is_or (by norm_num [hb]) a
  rw [Nat.shiftLeft_eq, Nat.mul_comm a (2 ^ 8), ← h]

theorem recombine_bytes (k : ℕ) : (k >>> 8) <<< 8 ||| (k &&& 255) = k := by
  have h255 : k &&& 255 = k % 256 := by
    have := Nat.and_pow_two_sub_one_eq_mod k 8
    norm_num at this
    exact this
  have hmod : k % 256 < 256 := Nat.mod_lt _ (by norm_num)
  rw [h255, lor_two_bytes _ _ hmod, Nat.shiftRight_eq_div_pow]
  norm_num
  omega

theorem bit_one (m : ℕ) : m >>> 1 &&& 1 = m / 2 % 2 := by
  rw [Nat.and_one_is_mod, Nat.shiftRight_eq_div_pow]

theorem bit_zero (m : ℕ) : m &&& 1 = m % 2 := Nat.and_one_is_mod m

/-- Evaluation of `from_knx` on an arbitrary 6-byte array. -/
theorem from_knx_six (b0 b1 b2 b3 b4 b5 : ℕ) :
    from_knx (.array [b0, b1, b2, b3, b4, b5]) = some
      { color :=
          if b5 / 2 % 2 = 1 then
            some (decode_fraction (b0 <<< 8 ||| b1), decode_fraction (b2 <<< 8 ||| b3))
          else none,
        brightness := if b5 % 2 = 1 then some ((b4 : ℚ)) else none } := by
  simp only [from_knx, validate_payload, List.length_cons, List.length_nil, List.getD,
    List.getElem?_cons_zero, List.getElem?_cons_succ, Option.getD_some, bit_one, bit_zero,
    Nat.shiftRight_one]
  norm_num

theorem to_knx_some_some (x y b : ℚ) (hxy : 0 ≤ x ∧ x ≤ 1 ∧ 0 ≤ y ∧ y ≤ 1)
    (hb : 0 ≤ b ∧ b ≤ 255) :
    to_knx ⟨some (x, y), some b⟩ = some (.array
      [(encode_fraction x).toNat >>> 8, (encode_fraction x).toNat &&& 255,
        (encode_fraction y).toNat >>> 8, (encode_fraction y).toNat &&& 255,
        (⌊b⌋).toNat, 3]) := by
  have h3 : ((1:ℕ) <<< 1 ||| 1) = 3 := by decide
  simp [to_knx, hxy, hb, h3]

theorem to_knx_none_some (b : ℚ) (hb : 0 ≤ b ∧ b ≤ 255) :
    to_knx ⟨none, some b⟩ = some (.array [0, 0, 0, 0, (⌊b⌋).toNat, 1]) := by
  have h1 : ((0:ℕ) <<< 1 ||| 1) = 1 := by decide
  simp [to_knx, hb, h1]

theorem to_knx_some_none (x y : ℚ) (hxy : 0 ≤ x ∧ x ≤ 1 ∧ 0 ≤ y ∧ y ≤ 1) :
    to_knx ⟨some (x, y), none⟩ = some (.array
      [(encode_fraction x).toNat >>> 8, (encode_fraction x).toNat &&& 255,
        (encode_fraction y).toNat >>> 8, (encode_fraction y).toNat &&& 255, 0, 2]) := by
  have h2 : ((1:ℕ) <<< 1 ||| 0) = 2 := by decide
  simp [to_knx, hxy, h2]

theorem to_knx_color_fail (x y : ℚ) (ob : Option ℚ)
    (h : ¬(0 ≤ x ∧ x ≤ 1 ∧ 0 ≤ y ∧ y ≤ 1)) :
    to_knx ⟨some (x, y), ob⟩ = none := by
  simp [to_knx, h]

theorem to_knx_bright_fail (oc : Option (ℚ × ℚ)) (b : ℚ)
    (h : ¬(0 ≤ b ∧ b ≤ 255)) :
    to_knx ⟨oc, some b⟩ = none := by
  cases oc with
  | none => simp [to_knx, h]
  | some xy =>
    obtain ⟨x, y⟩ := xy
    by_cases hxy : 0 ≤ x ∧ x ≤ 1 ∧ 0 ≤ y ∧ y ≤ 1 <;> simp [to_knx, h, hxy]

/-! ### The remote-value bridge, modelled from the spec (§4.3) -/

/-- Modelled from the spec: the state of a `RemoteValue` bridge (class code
not under `src/`): an immutable destination group address (an opaque
comparable key, embedded as `ℕ`) and the cached last successfully decoded
value (`none` = unknown). -/
structure RemoteValueState where
  destination : ℕ
  value : Option XYYColor
deriving DecidableEq

/-- A bus message command: a write carrying a payload, or some other
(non-write) command. -/
inductive APCI where
  | groupValueWrite : DPTPayload → APCI
  | groupValueRead : APCI
deriving DecidableEq

/-- A telegram: destination address plus command. -/
structure Telegram where
  destination_address : ℕ
  payload : APCI
deriving DecidableEq

/-- Modelled from the spec: `RemoteValue.process` (class code not under
`src/`): returns `false` without touching the cache when the telegram is not
addressed to this bridge, is not a write, or its payload fails to decode
(wrong kind, wrong length); on successful decode it overwrites the cache and
returns `true`.  Decode failures are swallowed, never raised. -/
def process (s : RemoteValueState) (t : Telegram) : Bool × RemoteValueState :=
  if t.destination_address ≠ s.destination then (false, s)
  else
    match t.payload with
    | .groupValueRead => (false, s)
    | .groupValueWrite p =>
      match from_knx p with
      | some v => (true, { s with value := some v })
      | none => (false, s)

/-! ### Claim theorems -/

/-- C1: for every x = k/65535 and y = j/65535 in [0,1] representable at
16-bit fixed-point resolution and every integer b in [0,255], decoding the
encoding of `{color := (x, y), brightness := b}` yields color `(x, y)` up to
5-decimal-digit rounding and brightness `b` exactly. -/
theorem roundtrip_color_brightness (k j b : ℕ)
    (hk : k ≤ 65535) (hj : j ≤ 65535) (hb : b ≤ 255) :
    (to_knx ⟨some ((k : ℚ) / 65535, (j : ℚ) / 65535), some ((b : ℚ))⟩).bind from_knx =
      some ⟨some (round5 ((k : ℚ) / 65535), round5 ((j : ℚ) / 65535)), some ((b : ℚ))⟩ := by
  have hkQ : (k : ℚ) ≤ 65535 := by exact_mod_cast hk
  have hjQ : (j : ℚ) ≤ 65535 := by exact_mod_cast hj
  have hx : 0 ≤ (k : ℚ) / 65535 ∧ (k : ℚ) / 65535 ≤ 1 ∧
      0 ≤ (j : ℚ) / 65535 ∧ (j : ℚ) / 65535 ≤ 1 := by
    refine ⟨by positivity, ?_, by positivity, ?_⟩ <;>
      rw [div_le_one (by norm_num)] <;> linarith
  have hbq : (0:ℚ) ≤ (b : ℚ) ∧ (b : ℚ) ≤ 255 :=
    ⟨by positivity, by exact_mod_cast hb⟩
  have hek : encode_fraction ((k : ℚ) / 65535) = (k : ℤ) := by
    unfold encode_fraction
    have h : (k : ℚ) / 65535 * 65535 = ((k : ℤ) : ℚ) := by
      push_cast; field_simp
    rw [h, pyRound_intCast]
  have hej : encode_fraction ((j : ℚ) / 65535) = (j : ℤ) := by
    unfold encode_fraction
    have h : (j : ℚ) / 65535 * 65535 = ((j : ℤ) : ℚ) := by
      push_cast; field_simp
    rw [h, pyRound_intCast]
  rw [to_knx_some_some _ _ _ hx hbq, hek, hej]
  simp only [Int.toNat_natCast, Int.floor_natCast, Option.some_bind]
  rw [from_knx_six, recombine_bytes, recombine_bytes]
  norm_num [decode_fraction]

/-- Witness for C1 at k = 65535, j = 26214, b = 102. -/
theorem roundtrip_color_brightness_witness :
    (to_knx ⟨some (((65535:ℕ) : ℚ) / 65535, ((26214:ℕ) : ℚ) / 65535),
        some (((102:ℕ) : ℚ))⟩).bind from_knx =
      some ⟨some (round5 (((65535:ℕ) : ℚ) / 65535), round5 (((26214:ℕ) : ℚ) / 65535)),
        some (((102:ℕ) : ℚ))⟩ :=
  roundtrip_color_brightness 65535 26214 102 (by norm_num) (by norm_num) (by norm_num)

/-- C3: decode fails exactly on structural mismatch: every `DPTBinary`
payload and every byte array whose length is not 6 is rejected, while every
6-byte array decodes successfully, whatever its content bytes. -/
theorem decode_fails_iff_structural :
    (∀ n, from_knx (.binary n) = none) ∧
    (∀ bs : List ℕ, bs.length ≠ 6 → from_knx (.array bs) = none) ∧
    (∀ bs : List ℕ, bs.length = 6 → (from_knx (.array bs)).isSome = true) := by
  refine ⟨fun n => rfl, fun bs h => by simp [from_knx, validate_payload, h],
    fun bs h => ?_⟩
  rcases bs with _ | ⟨b0, _ | ⟨b1, _ | ⟨b2, _ | ⟨b3, _ | ⟨b4, _ | ⟨b5, _ | ⟨b6, tl⟩⟩⟩⟩⟩⟩⟩ <;>
    simp_all [from_knx_six]

/-- Witness for C3: a single-bit payload, the repo test's 4-byte array, and
an all-zero 6-byte array. -/
theorem decode_fails_iff_structural_witness :
    from_knx (.binary 1) = none ∧
    from_knx (.array [0x64, 0x65, 0x66, 0x67]) = none ∧
    (from_knx (.array [0, 0, 0, 0, 0, 0])).isSome = true :=
  ⟨decode_fails_iff_structural.1 1,
    decode_fails_iff_structural.2.1 _ (by norm_num),
    decode_fails_iff_structural.2.2 _ rfl⟩

/-- C4: the validity bitmask alone is authoritative: if bit 1 of byte 5 is
clear the decoded color is `none` regardless of bytes 0–3; if bit 0 is clear
the decoded brightness is `none` regardless of byte 4; and bits 2–7 of
byte 5 never affect the decoded result. -/
theorem validity_bitmask_authority (b0 b1 b2 b3 b4 m : ℕ) :
    (m / 2 % 2 = 0 →
      from_knx (.array [b0, b1, b2, b3, b4, m]) =
        some ⟨none, if m % 2 = 1 then some ((b4 : ℚ)) else none⟩) ∧
    (m % 2 = 0 →
      from_knx (.array [b0, b1, b2, b3, b4, m]) =
        some ⟨if m / 2 % 2 = 1 then
            some (decode_fraction (b0 <<< 8 ||| b1), decode_fraction (b2 <<< 8 ||| b3))
          else none, none⟩) ∧
    from_knx (.array [b0, b1, b2, b3, b4, m]) =
      from_knx (.array [b0, b1, b2, b3, b4, m % 4]) := by
  refine ⟨fun h => ?_, fun h => ?_, ?_⟩
  · rw [from_knx_six]; simp [h]
  · rw [from_knx_six]; simp [h]
  · rw [from_knx_six, from_knx_six]
    have e1 : m % 4 / 2 % 2 = m / 2 % 2 := by omega
    have e2 : m % 4 % 2 = m % 2 := by omega
    rw [e1, e2]

/-- Witness for C4: byte 5 = 252 has bits 2–7 set but bits 0 and 1 clear, so
an all-0xFF content decodes to the empty value; byte 5 = 255 decodes the same
way as byte 5 = 3. -/
theorem validity_bitmask_authority_witness :
    from_knx (.array [255, 255, 255, 255, 255, 252]) = some ⟨none, none⟩ ∧
    from_knx (.array [255, 255, 255, 255, 255, 255]) =
      from_knx (.array [255, 255, 255, 255, 255, 3]) := by
  have h1 := (validity_bitmask_authority 255 255 255 255 255 252).1 (by norm_num)
  have h3 := (validity_bitmask_authority 255 255 255 255 255 255).2.2
  norm_num at h1 h3
  exact ⟨h1, h3⟩

/-- C6: the decoded fraction is `round(raw / 65535, 5)`, and this map is
injective on 16-bit raw values: re-encoding the decoded fraction recovers the
raw value exactly, so distinct raw values give distinct decoded fractions. -/
theorem decode_fraction_preserves_precision (r₁ r₂ : ℕ) :
    decode_fraction r₁ = round5 ((r₁ : ℚ) / 65535) ∧
    encode_fraction (decode_fraction r₁) = (r₁ : ℤ) ∧
    (decode_fraction r₁ = decode_fraction r₂ → r₁ = r₂) :=
  ⟨rfl, encode_fraction_decode_fraction r₁, decode_fraction_injective r₁ r₂⟩

/-- Witness for C6 at raw = 39321 (= 0x9999). -/
theorem decode_fraction_preserves_precision_witness :
    decode_fraction 39321 = round5 ((39321 : ℚ) / 65535) ∧
    encode_fraction (decode_fraction 39321) = (39321 : ℤ) ∧
    (39321 : ℕ) = 39321 :=
  ⟨(decode_fraction_preserves_precision 39321 39321).1,
    (decode_fraction_preserves_precision 39321 39321).2.1,
    (decode_fraction_preserves_precision 39321 39321).2.2 rfl⟩

/-- C5: encoding `{x_axis := 1, y_axis := 0.9, brightness := 102}` succeeds
and produces exactly `FF FF E6 66 66 03` (the boundary x = 1 is accepted),
while any present axis outside [0,1] or present brightness outside [0,255]
makes the encoding fail with a conversion error. -/
theorem boundary_encoding_and_range_rejection :
    to_knx ⟨some (1, 9/10), some 102⟩ =
      some (.array [0xFF, 0xFF, 0xE6, 0x66, 0x66, 0x03]) ∧
    (∀ (x y : ℚ) (ob : Option ℚ), ¬(0 ≤ x ∧ x ≤ 1 ∧ 0 ≤ y ∧ y ≤ 1) →
      to_knx ⟨some (x, y), ob⟩ = none) ∧
    (∀ (oc : Option (ℚ × ℚ)) (b : ℚ), ¬(0 ≤ b ∧ b ≤ 255) →
      to_knx ⟨oc, some b⟩ = none) := by
  refine ⟨?_, to_knx_color_fail, to_knx_bright_fail⟩
  simp only [to_knx, encode_fraction, pyRound]
  norm_num
  decide

/-- Witness for C5: the repo test's rejected inputs x = 2, x = -1 and
brightness = 256. -/
theorem boundary_encoding_and_range_rejection_witness :
    to_knx ⟨some (2, 1), some 1⟩ = none ∧
    to_knx ⟨some (-1, 1), some 2⟩ = none ∧
    to_knx ⟨some (3/10, 1/2), some 256⟩ = none :=
  ⟨boundary_encoding_and_range_rejection.2.1 2 1 (some 1) (by norm_num),
    boundary_encoding_and_range_rejection.2.1 (-1) 1 (some 2) (by norm_num),
    boundary_encoding_and_range_rejection.2.2 (some (3/10, 1/2)) 256 (by norm_num)⟩

/-- C7: fields are independently optional with zero fill: with color absent,
bytes 0–3 are zero and the bitmask has only the brightness bit, and decoding
the encoding returns the brightness unchanged with color `none`; with
brightness absent, byte 4 is zero and only the color bit is set, and decoding
the encoding returns the color unchanged with brightness `none`. -/
theorem independent_optionality_zero_fill (b k j : ℕ)
    (hb : b ≤ 255) (hk : k ≤ 65535) (hj : j ≤ 65535) :
    (to_knx ⟨none, some ((b : ℚ))⟩ = some (.array [0, 0, 0, 0, b, 1]) ∧
      (to_knx ⟨none, some ((b : ℚ))⟩).bind from_knx = some ⟨none, some ((b : ℚ))⟩) ∧
    (to_knx ⟨some (decode_fraction k, decode_fraction j), none⟩ =
        some (.array [k >>> 8, k &&& 255, j >>> 8, j &&& 255, 0, 2]) ∧
      (to_knx ⟨some (decode_fraction k, decode_fraction j), none⟩).bind from_knx =
        some ⟨some (decode_fraction k, decode_fraction j), none⟩) := by
  have hbq : (0:ℚ) ≤ (b : ℚ) ∧ (b : ℚ) ≤ 255 := ⟨by positivity, by exact_mod_cast hb⟩
  have hxy : 0 ≤ decode_fraction k ∧ decode_fraction k ≤ 1 ∧
      0 ≤ decode_fraction j ∧ decode_fraction j ≤ 1 :=
    ⟨decode_fraction_nonneg k, decode_fraction_le_one k hk,
      decode_fraction_nonneg j, decode_fraction_le_one j hj⟩
  have hA := to_knx_none_some ((b : ℚ)) hbq
  have hfloor : (⌊((b : ℚ))⌋).toNat = b := by
    rw [Int.floor_natCast, Int.toNat_natCast]
  rw [hfloor] at hA
  have hB := to_knx_some_none _ _ hxy
  rw [encode_fraction_decode_fraction, encode_fraction_decode_fraction] at hB
  simp only [Int.toNat_natCast] at hB
  refine ⟨⟨hA, ?_⟩, hB, ?_⟩
  · rw [hA]
    simp only [Option.some_bind]
    rw [from_knx_six]
    norm_num
  · rw [hB]
    simp only [Option.some_bind]
    rw [from_knx_six, recombine_bytes, recombine_bytes]
    norm_num

/-- Witness for C7 at b = 250, k = 65535, j = 26214. -/
theorem independent_optionality_zero_fill_witness :
    (to_knx ⟨none, some (((250:ℕ) : ℚ))⟩ = some (.array [0, 0, 0, 0, 250, 1]) ∧
      (to_knx ⟨none, some (((250:ℕ) : ℚ))⟩).bind from_knx =
        some ⟨none, some (((250:ℕ) : ℚ))⟩) ∧
    (to_knx ⟨some (decode_fraction 65535, decode_fraction 26214), none⟩ =
        some (.array [65535 >>> 8, 65535 &&& 255, 26214 >>> 8, 26214 &&& 255, 0, 2]) ∧
      (to_knx ⟨some (decode_fraction 65535, decode_fraction 26214), none⟩).bind from_knx =
        some ⟨some (decode_fraction 65535, decode_fraction 26214), none⟩) :=
  independent_optionality_zero_fill 250 65535 26214
    (by norm_num) (by norm_num) (by norm_num)

/-- C10: every value decoded from a 6-byte payload satisfies the data-model
domain: a present color has both axes in [0,1] and a present brightness lies
in [0,255]. -/
theorem decode_output_domain (bs : List ℕ) (h6 : bs.length = 6)
    (hbyte : ∀ x ∈ bs, x < 256) (v : XYYColor) (hv : from_knx (.array bs) = some v) :
    (∀ x y, v.color = some (x, y) → 0 ≤ x ∧ x ≤ 1 ∧ 0 ≤ y ∧ y ≤ 1) ∧
    (∀ q, v.brightness = some q → 0 ≤ q ∧ q ≤ 255) := by
  rcases bs with _ | ⟨b0, bs⟩
  · simp at h6
  rcases bs with _ | ⟨b1, bs⟩
  · simp at h6
  rcases bs with _ | ⟨b2, bs⟩
  · simp at h6
  rcases bs with _ | ⟨b3, bs⟩
  · simp at h6
  rcases bs with _ | ⟨b4, bs⟩
  · simp at h6
  rcases bs with _ | ⟨b5, bs⟩
  · simp at h6
  rcases bs with _ | ⟨b6, tl⟩
  swap
  · simp at h6
  have hb0 : b0 < 256 := hbyte _ (by simp)
  have hb1 : b1 < 256 := hbyte _ (by simp)
  have hb2 : b2 < 256 := hbyte _ (by simp)
  have hb3 : b3 < 256 := hbyte _ (by simp)
  have hb4 : b4 < 256 := hbyte _ (by simp)
  rw [from_knx_six] at hv
  have hv' := (Option.some_inj.mp hv).symm
  subst hv'
  have hxle : b0 <<< 8 ||| b1 ≤ 65535 := by
    rw [lor_two_bytes _ _ hb1]; omega
  have hyle : b2 <<< 8 ||| b3 ≤ 65535 := by
    rw [lor_two_bytes _ _ hb3]; omega
  constructor
  · intro x y hxy
    by_cases h5 : b5 / 2 % 2 = 1
    · simp only [h5, if_pos] at hxy
      simp only [Option.some_inj, Prod.mk.injEq] at hxy
      obtain ⟨hx, hy⟩ := hxy
      subst hx
      subst hy
      exact ⟨decode_fraction_nonneg _, decode_fraction_le_one _ hxle,
        decode_fraction_nonneg _, decode_fraction_le_one _ hyle⟩
    · simp [h5] at hxy
  · intro q hq
    by_cases h5 : b5 % 2 = 1
    · simp only [h5, if_pos] at hq
      simp only [Option.some_inj] at hq
      subst hq
      constructor
      · positivity
      · have : (b4 : ℚ) ≤ 255 := by exact_mod_cast Nat.le_of_lt_succ hb4
        exact this
    · simp [h5] at hq

/-- Witness for C10 on the repo test payload `FF FF 66 66 FA 03`. -/
theorem decode_output_domain_witness :
    (∀ x y, (XYYColor.mk
        (if (3:ℕ) / 2 % 2 = 1 then
          some (decode_fraction ((0xFF:ℕ) <<< 8 ||| 0xFF),
            decode_fraction ((0x66:ℕ) <<< 8 ||| 0x66))
        else none)
        (if (3:ℕ) % 2 = 1 then some (((0xFA:ℕ) : ℚ)) else none)).color = some (x, y) →
      0 ≤ x ∧ x ≤ 1 ∧ 0 ≤ y ∧ y ≤ 1) ∧
    (∀ q, (XYYColor.mk
        (if (3:ℕ) / 2 % 2 = 1 then
          some (decode_fraction ((0xFF:ℕ) <<< 8 ||| 0xFF),
            decode_fraction ((0x66:ℕ) <<< 8 ||| 0x66))
        else none)
        (if (3:ℕ) % 2 = 1 then some (((0xFA:ℕ) : ℚ)) else none)).brightness = some q →
      0 ≤ q ∧ q ≤ 255) :=
  decode_output_domain [0xFF, 0xFF, 0x66, 0x66, 0xFA, 0x03] rfl
    (by intro x hx; fin_cases hx <;> norm_num) _ (from_knx_six 0xFF 0xFF 0x66 0x66 0xFA 0x03)

/-- C2 (evidence of a code bug): a mapping supplying only `x_axis` (no
`y_axis`) is NOT rejected by `XYYColor.from_dict` — the partial pair is
silently treated as color-absent, and encoding then succeeds, producing
`00 00 00 00 01 01`.  The repository's own test `test_to_knx_error` expects a
`ConversionError` for exactly this input. -/
theorem partial_axis_pair_silently_encodes :
    XYYColor.from_dict ⟨some 1, none, some 1⟩ = some ⟨none, some 1⟩ ∧
    (XYYColor.from_dict ⟨some 1, none, some 1⟩).bind to_knx =
      some (.array [0, 0, 0, 0, 1, 1]) := by
  constructor
  · rfl
  · have h := to_knx_none_some 1 (by norm_num)
    norm_num at h
    simpa [XYYColor.from_dict] using h

/-- C8 counterexample: a non-integer brightness of 102.5 is NOT rejected by
`to_knx`; it passes the range check and is truncated by `int(...)` to the
byte 102. -/
theorem noninteger_brightness_not_rejected :
    to_knx ⟨none, some (205/2)⟩ = some (.array [0, 0, 0, 0, 102, 1]) := by
  have h := to_knx_none_some (205/2) (by norm_num)
  norm_num at h
  exact h

/-- C8 amended: `to_knx` validates only that a present brightness lies in
[0,255] (failing with a conversion error otherwise); an in-range non-integer
brightness is accepted and truncated toward zero, not rejected. -/
theorem brightness_range_check_only (oc : Option (ℚ × ℚ)) (b : ℚ) :
    (¬(0 ≤ b ∧ b ≤ 255) → to_knx ⟨oc, some b⟩ = none) ∧
    (0 ≤ b ∧ b ≤ 255 →
      to_knx ⟨none, some b⟩ = some (.array [0, 0, 0, 0, (⌊b⌋).toNat, 1])) :=
  ⟨to_knx_bright_fail oc b, fun h => to_knx_none_some b h⟩

/-- Witness for C8 amended at b = 256 (rejected) and b = 102.5 (truncated). -/
theorem brightness_range_check_only_witness :
    to_knx ⟨none, some 256⟩ = none ∧
    to_knx ⟨none, some (205/2)⟩ =
      some (.array [0, 0, 0, 0, (⌊(205/2 : ℚ)⌋).toNat, 1]) :=
  ⟨(brightness_range_check_only none 256).1 (by norm_num),
    (brightness_range_check_only none (205/2)).2 (by norm_num)⟩

/-- C9: `process` routing and cache atomicity: a telegram not addressed to
this bridge, a payload of the wrong kind (single-bit), or a payload that
fails to decode (wrong length) yields `false` with the cached value left
completely unchanged — never an exception; an addressed write carrying any
6-byte array yields `true` and overwrites the cache with the decoded value. -/
theorem process_routing_and_cache (s : RemoteValueState) :
    (∀ t : Telegram, t.destination_address ≠ s.destination → process s t = (false, s)) ∧
    (∀ n, process s ⟨s.destination, .groupValueWrite (.binary n)⟩ = (false, s)) ∧
    (∀ bs : List ℕ, bs.length ≠ 6 →
      process s ⟨s.destination, .groupValueWrite (.array bs)⟩ = (false, s)) ∧
    (∀ bs : List ℕ, bs.length = 6 → ∀ v, from_knx (.array bs) = some v →
      process s ⟨s.destination, .groupValueWrite (.array bs)⟩ =
        (true, { s with value := some v })) := by
  refine ⟨fun t ht => ?_, fun n => ?_, fun bs h => ?_, fun bs h v hv => ?_⟩
  · simp [process, ht]
  · simp [process, from_knx, validate_payload]
  · simp [process, from_knx, validate_payload, h]
  · simp [process, hv]

/-- Witness for C9: the repo test's telegrams on a bridge with destination 3
and empty cache: a `DPTBinary 1` write and a 4-byte array are rejected with
the cache untouched; the 6-byte write `FF FF 66 66 FA 03` is accepted and
caches x = 1, y = 0.4, brightness = 250. -/
theorem process_routing_and_cache_witness :
    process ⟨3, none⟩ ⟨3, .groupValueWrite (.binary 1)⟩ = (false, ⟨3, none⟩) ∧
    process ⟨3, none⟩ ⟨3, .groupValueWrite (.array [0x64, 0x65, 0x66, 0x67])⟩ =
      (false, ⟨3, none⟩) ∧
    process ⟨3, none⟩ ⟨3, .groupValueWrite (.array [0xFF, 0xFF, 0x66, 0x66, 0xFA, 0x03])⟩ =
      (true, ⟨3, some ⟨some (decode_fraction 65535, decode_fraction 26214), some 250⟩⟩) := by
  refine ⟨(process_routing_and_cache ⟨3, none⟩).2.1 1,
    (process_routing_and_cache ⟨3, none⟩).2.2.1 _ (by norm_num), ?_⟩
  have h := (process_routing_and_cache ⟨3, none⟩).2.2.2
    [0xFF, 0xFF, 0x66, 0x66, 0xFA, 0x03] rfl
    _ (from_knx_six 0xFF 0xFF 0x66 0x66 0xFA 0x03)
  have e1 : ((0xFF:ℕ) <<< 8 ||| 0xFF) = 65535 := by decide
  have e2 : ((0x66:ℕ) <<< 8 ||| 0x66) = 26214 := by decide
  norm_num [e1, e2] at h
  exact h

end XknxColor
